import Mathlib

/-!
Shallow embedding of `src/data_masking.py` from the financial_digest_emailer
repository, together with theorems settling the specification's claims about
the sensitive-data masking pipeline.

Modelling conventions:
* A Python JSON-like record is the inductive `Value` (string, int, bool, None,
  list, dict).  Python dicts preserve insertion order, so a dict is a list of
  key/value pairs in order.
* Python functions that can raise are modelled in `Except String`; the error
  string names the Python exception that the corresponding line raises.
* Python truthiness (`if not x`) is `pyFalsy`.
* `re` patterns are compiled to executable Boolean matchers over the string's
  characters; `\d` is modelled as an ASCII digit and the character classes of
  the email pattern as their ASCII contents, matching the ASCII inputs the
  spec and the claims discuss.
* The mutable `masked_fields : Set[str]` accumulator is threaded explicitly
  as a `List String` treated as a set (insertion skips duplicates).
-/

/-- A Python value of the shapes the masker can receive: scalars (string,
number, boolean, None), ordered sequences, and string-keyed mappings. -/
inductive Value where
  | str (s : String)
  | int (n : Int)
  | bool (b : Bool)
  | none
  | list (items : List Value)
  | dict (pairs : List (String × Value))
deriving Repr

/-- Python truthiness test: `not v` is true exactly on these values. -/
def pyFalsy : Value → Bool
  | .str s => s = ""
  | .int n => n = 0
  | .bool b => !b
  | .none => true
  | .list l => l.isEmpty
  | .dict d => d.isEmpty

/-- SENSITIVE_FIELDS from data_masking.py: keys whose values are fully
replaced. -/
def SENSITIVE_FIELDS : List String :=
  ["account_number", "client_id", "email", "recipient_email"]

/-- PARTIAL_MASK_FIELDS from data_masking.py: keys whose values are partially
masked. -/
def PARTIAL_MASK_FIELDS : List String :=
  ["client_name"]

/-- Adding a key to the masked-fields set (`masked_fields.add(key)`). -/
def addField (mf : List String) (k : String) : List String :=
  if mf.contains k then mf else mf ++ [k]

/-- Full-string match of ACCOUNT_NUMBER_PATTERN = `ACC\d+`: the literal
characters A, C, C followed by one or more digits. -/
def accFullmatch (s : String) : Bool :=
  match s.toList with
  | 'A' :: 'C' :: 'C' :: ds => !ds.isEmpty && ds.all Char.isDigit
  | _ => false

/-- Full-string match of CLIENT_ID_PATTERN = `C\d+`: the literal character C
followed by one or more digits. -/
def cidFullmatch (s : String) : Bool :=
  match s.toList with
  | 'C' :: ds => !ds.isEmpty && ds.all Char.isDigit
  | _ => false

/-- Characters of the class `[a-zA-Z0-9._%+-]` (the local part of
EMAIL_PATTERN). -/
def localChar (c : Char) : Bool :=
  c.isAlpha || c.isDigit || c = '.' || c = '_' || c = '%' || c = '+' || c = '-'

/-- Characters of the class `[a-zA-Z0-9.-]` (the domain body of
EMAIL_PATTERN). -/
def domChar (c : Char) : Bool :=
  c.isAlpha || c.isDigit || c = '.' || c = '-'

/-- Full-string match of EMAIL_PATTERN =
`[a-zA-Z0-9._%+-]+@[a-zA-Z0-9.-]+\.[a-zA-Z]{2,}`.  None of the classes
admit '@', so the matched '@' is the unique one; the domain decomposes at
some '.' (necessarily the last, since the final class excludes '.') into a
nonempty `[a-zA-Z0-9.-]+` body and a final run of at least two letters. -/
def emailFullmatch (s : String) : Bool :=
  let cs := s.toList
  let u := cs.takeWhile (fun c => c ≠ '@')
  let rest := (cs.drop u.length).drop 1
  decide (u.length + 1 ≤ cs.length) &&
  !u.isEmpty && u.all localChar &&
  !rest.contains '@' &&
  (List.range rest.length).any (fun j =>
    rest.getD j ' ' = '.' && decide (0 < j) && (rest.take j).all domChar &&
    decide (2 ≤ rest.length - (j + 1)) && (rest.drop (j + 1)).all Char.isAlpha)

/-- Translation of `mask_account_number` applied to an arbitrary value, as
`mask_dict` does.  The guard `if not account_number: return account_number`
passes falsy values through; then `len(...)` raises TypeError on ints and
bools; a short string (or list or dict, on which `len` works) yields the
fixed mask; the long-string branch concatenates filler characters with the
last four items, which raises TypeError unless the value is a string. -/
def mask_account_number (v : Value) : Except String Value :=
  if pyFalsy v then .ok v else
  match v with
  | .str s =>
    if s.length ≤ 4 then .ok (.str "****")
    else .ok (.str (String.mk (List.replicate (s.length - 4) 'X' ++
      s.toList.drop (s.length - 4))))
  | .list l =>
    if l.length ≤ 4 then .ok (.str "****")
    else .error "TypeError: can only concatenate str (not \x7blist\x7d) to str"
  | .dict d =>
    if d.length ≤ 4 then .ok (.str "****")
    else .error "TypeError: unhashable type: slice"
  | _ => .error "TypeError: object of this type has no len()"

/-- Translation of `mask_email` applied to an arbitrary value.  The guard
`if not email or '@' not in email` passes falsy values and '@'-free values
through; `'@' in x` raises TypeError on ints and bools, and on lists and
dicts tests membership (of the element, resp. key, "@"); `split('@', 1)`
splits a string at its first '@' and raises AttributeError on anything
else. -/
def mask_email (v : Value) : Except String Value :=
  if pyFalsy v then .ok v else
  match v with
  | .str s =>
    if !(s.toList.contains '@') then .ok (.str s)
    else
      let cs := s.toList
      let u := cs.takeWhile (fun c => c ≠ '@')
      let dom := (cs.drop u.length).drop 1
      let mu : List Char :=
        if u.length ≤ 2 then ['*', '*']
        else
          match u with
          | [] => []
          | c :: rest =>
            c :: (List.replicate (u.length - 2) '*' ++
              [(c :: rest).getLast (List.cons_ne_nil c rest)])
      .ok (.str (String.mk (mu ++ '@' :: dom)))
  | .list l =>
    if l.any (fun x => match x with | .str t => t = "@" | _ => false) then
      .error "AttributeError: list object has no attribute split"
    else .ok v
  | .dict d =>
    if d.any (fun kv => kv.1 = "@") then
      .error "AttributeError: dict object has no attribute split"
    else .ok v
  | _ => .error "TypeError: argument is not iterable"

/-- UTF-8 encoding of a Unicode code point (Python `str.encode()`,
per byte as a Nat below 256). -/
def utf8Bytes (c : Nat) : List Nat :=
  if c < 0x80 then [c]
  else if c < 0x800 then
    [0xC0 ||| (c >>> 6), 0x80 ||| (c &&& 0x3F)]
  else if c < 0x10000 then
    [0xE0 ||| (c >>> 12), 0x80 ||| ((c >>> 6) &&& 0x3F), 0x80 ||| (c &&& 0x3F)]
  else
    [0xF0 ||| (c >>> 18), 0x80 ||| ((c >>> 12) &&& 0x3F),
     0x80 ||| ((c >>> 6) &&& 0x3F), 0x80 ||| (c &&& 0x3F)]

/-- Bytes of `value.encode()` for a string value. -/
def strBytes (s : String) : List Nat :=
  s.toList.flatMap (fun c => utf8Bytes c.toNat)

/-- Modulus of 32-bit machine arithmetic. -/
def M32 : Nat := 4294967296

/-- 32-bit addition. -/
def add32 (a b : Nat) : Nat := (a + b) % M32

/-- 32-bit bitwise complement. -/
def not32 (a : Nat) : Nat := a ^^^ 4294967295

/-- 32-bit left rotation by s positions (0 ≤ s < 32). -/
def rotl32 (x s : Nat) : Nat := (((x <<< s) % M32) ||| (x >>> (32 - s)))

/-- MD5 round constants K[0..63] (RFC 1321). -/
def mdK : List Nat :=
  [0xd76aa478, 0xe8c7b756, 0x242070db, 0xc1bdceee,
   0xf57c0faf, 0x4787c62a, 0xa8304613, 0xfd469501,
   0x698098d8, 0x8b44f7af, 0xffff5bb1, 0x895cd7be,
   0x6b901122, 0xfd987193, 0xa679438e, 0x49b40821,
   0xf61e2562, 0xc040b340, 0x265e5a51, 0xe9b6c7aa,
   0xd62f105d, 0x02441453, 0xd8a1e681, 0xe7d3fbc8,
   0x21e1cde6, 0xc33707d6, 0xf4d50d87, 0x455a14ed,
   0xa9e3e905, 0xfcefa3f8, 0x676f02d9, 0x8d2a4c8a,
   0xfffa3942, 0x8771f681, 0x6d9d6122, 0xfde5380c,
   0xa4beea44, 0x4bdecfa9, 0xf6bb4b60, 0xbebfbc70,
   0x289b7ec6, 0xeaa127fa, 0xd4ef3085, 0x04881d05,
   0xd9d4d039, 0xe6db99e5, 0x1fa27cf8, 0xc4ac5665,
   0xf4292244, 0x432aff97, 0xab9423a7, 0xfc93a039,
   0x655b59c3, 0x8f0ccc92, 0xffeff47d, 0x85845dd1,
   0x6fa87e4f, 0xfe2ce6e0, 0xa3014314, 0x4e0811a1,
   0xf7537e82, 0xbd3af235, 0x2ad7d2bb, 0xeb86d391]

/-- MD5 per-round left-rotation amounts s[0..63] (RFC 1321). -/
def mdS : List Nat :=
  [7, 12, 17, 22, 7, 12, 17, 22, 7, 12, 17, 22, 7, 12, 17, 22,
   5, 9, 14, 20, 5, 9, 14, 20, 5, 9, 14, 20, 5, 9, 14, 20,
   4, 11, 16, 23, 4, 11, 16, 23, 4, 11, 16, 23, 4, 11, 16, 23,
   6, 10, 15, 21, 6, 10, 15, 21, 6, 10, 15, 21, 6, 10, 15, 21]

/-- MD5 nonlinear function of round i applied to state words b, c, d. -/
def md5F (i b c d : Nat) : Nat :=
  if i < 16 then (b &&& c) ||| (not32 b &&& d)
  else if i < 32 then (d &&& b) ||| (not32 d &&& c)
  else if i < 48 then b ^^^ c ^^^ d
  else c ^^^ (b ||| not32 d)

/-- MD5 message-word index of round i. -/
def md5g (i : Nat) : Nat :=
  if i < 16 then i
  else if i < 32 then (5 * i + 1) % 16
  else if i < 48 then (3 * i + 5) % 16
  else (7 * i) % 16

/-- Little-endian 32-bit word number g of a 64-byte chunk. -/
def leWord (chunk : List Nat) (g : Nat) : Nat :=
  chunk.getD (4 * g) 0 + 256 * chunk.getD (4 * g + 1) 0 +
    65536 * chunk.getD (4 * g + 2) 0 + 16777216 * chunk.getD (4 * g + 3) 0

/-- One MD5 round applied to the running state (a, b, c, d). -/
def md5Round (chunk : List Nat) (st : Nat × Nat × Nat × Nat) (i : Nat) :
    Nat × Nat × Nat × Nat :=
  let (a, b, c, d) := st
  let f := (md5F i b c d + a + mdK.getD i 0 + leWord chunk (md5g i)) % M32
  (d, add32 b (rotl32 f (mdS.getD i 0)), b, c)

/-- Processing one 64-byte chunk: 64 rounds, then adding into the state. -/
def md5Chunk (st : Nat × Nat × Nat × Nat) (chunk : List Nat) :
    Nat × Nat × Nat × Nat :=
  let (a0, b0, c0, d0) := st
  let (a, b, c, d) := (List.range 64).foldl (md5Round chunk) st
  (add32 a0 a, add32 b0 b, add32 c0 c, add32 d0 d)

/-- Little-endian bytes of a 64-bit quantity. -/
def le64 (n : Nat) : List Nat :=
  (List.range 8).map (fun i => (n >>> (8 * i)) % 256)

/-- MD5 padding: a 0x80 byte, zeros to 56 mod 64, and the bit length as a
64-bit little-endian quantity. -/
def md5pad (msg : List Nat) : List Nat :=
  msg ++ 0x80 :: List.replicate ((119 - msg.length % 64) % 64) 0 ++
    le64 ((msg.length * 8) % 2 ^ 64)

/-- Splitting a byte list into 64-byte chunks; the Nat bound makes the
recursion structural. -/
def chunksGo : Nat → List Nat → List (List Nat)
  | 0, _ => []
  | n + 1, bs => if bs.isEmpty then [] else bs.take 64 :: chunksGo n (bs.drop 64)

/-- All 64-byte chunks of a byte list (applied to the padded input). -/
def chunks64 (bs : List Nat) : List (List Nat) := chunksGo bs.length bs

/-- Little-endian bytes of a 32-bit word. -/
def le32bytes (n : Nat) : List Nat :=
  [n % 256, (n >>> 8) % 256, (n >>> 16) % 256, (n >>> 24) % 256]

/-- The 16 digest bytes of MD5 of a byte message (RFC 1321). -/
def md5bytes (msg : List Nat) : List Nat :=
  let st := (chunks64 (md5pad msg)).foldl md5Chunk
    (0x67452301, 0xefcdab89, 0x98badcfe, 0x10325476)
  le32bytes st.1 ++ le32bytes st.2.1 ++ le32bytes st.2.2.1 ++ le32bytes st.2.2.2

/-- Lowercase hexadecimal digit of a value below 16. -/
def hexChar (n : Nat) : Char :=
  if n < 10 then Char.ofNat (48 + n) else Char.ofNat (87 + n)

/-- Two lowercase hexadecimal digits of one byte, high nibble first. -/
def byteHex (b : Nat) : List Char := [hexChar (b / 16 % 16), hexChar (b % 16)]

/-- Characters of `hashlib.md5(bytes).hexdigest()`: 32 lowercase hex
digits. -/
def md5hexChars (msg : List Nat) : List Char :=
  (md5bytes msg).flatMap byteHex

/-- Translation of `hash_value` applied to an arbitrary value.  The guard
`if not value: return value` passes falsy values through; `value.encode()`
raises AttributeError on non-strings; otherwise the result is the first 8
characters of the MD5 hexdigest of the UTF-8 bytes. -/
def hash_value (v : Value) : Except String Value :=
  if pyFalsy v then .ok v else
  match v with
  | .str s => .ok (.str (String.mk ((md5hexChars (strBytes s)).take 8)))
  | _ => .error "AttributeError: object has no attribute encode"

/-- Accumulating word splitter: cur holds the characters of the word in
progress, in reverse. -/
def wordsAux : List Char → List Char → List String
  | [], cur => if cur.isEmpty then [] else [String.mk cur.reverse]
  | c :: cs, cur =>
    if c.isWhitespace then
      if cur.isEmpty then wordsAux cs []
      else String.mk cur.reverse :: wordsAux cs []
    else wordsAux cs (c :: cur)

/-- Python `str.split()` with no arguments: split on runs of whitespace,
discarding empty pieces. -/
def pySplit (s : String) : List String :=
  wordsAux s.toList []

/-- Translation of `mask_client_name` applied to an arbitrary value.  The
guard `if not name or ' ' not in name` passes falsy values and space-free
values through; `' ' in x` raises TypeError on ints and bools and tests
membership on lists and dicts; `name.split()` raises AttributeError on
non-strings; `parts[0]` raises IndexError when the split of an all-space
string is empty. -/
def mask_client_name (v : Value) : Except String Value :=
  if pyFalsy v then .ok v else
  match v with
  | .str s =>
    if !(s.toList.contains ' ') then .ok (.str s)
    else
      match pySplit s with
      | [p] =>
        match p.toList with
        | [] => .error "IndexError: string index out of range"
        | c :: _ => .ok (.str (String.mk [c, '*', '*', '*']))
      | [] => .error "IndexError: list index out of range"
      | p :: rest =>
        match p.toList with
        | [] => .error "IndexError: string index out of range"
        | c :: _ =>
          .ok (.str (String.mk (c :: '.' :: ' ' ::
            ((p :: rest).getLast (List.cons_ne_nil p rest)).toList)))
  | .list l =>
    if l.any (fun x => match x with | .str t => t = " " | _ => false) then
      .error "AttributeError: list object has no attribute split"
    else .ok v
  | .dict d =>
    if d.any (fun kv => kv.1 = " ") then
      .error "AttributeError: dict object has no attribute split"
    else .ok v
  | _ => .error "TypeError: argument is not iterable"

mutual

/-- Translation of `mask_sensitive_data`, with the masked_fields set
threaded explicitly: dicts go through the mapping pass, list elements are
masked in order (each call seeing the set as mutated so far), strings are
classified against the three full-match patterns in precedence order, and
every other scalar is returned unchanged. -/
def mask_sensitive_data : Value → List String →
    Except String (Value × List String)
  | .dict d, mf => (mask_dict d mf).map (fun p => (Value.dict p.1, p.2))
  | .list l, mf => (mask_list l mf).map (fun p => (Value.list p.1, p.2))
  | .str s, mf =>
    if accFullmatch s then (mask_account_number (.str s)).map (fun w => (w, mf))
    else if cidFullmatch s then (hash_value (.str s)).map (fun w => (w, mf))
    else if emailFullmatch s then (mask_email (.str s)).map (fun w => (w, mf))
    else .ok (.str s, mf)
  | v, mf => .ok (v, mf)
termination_by structural v => v

/-- Translation of `mask_dict`: each key/value pair in insertion order is
replaced by the field-specific transform when the key is sensitive or
partially masked (recording the key), and recursed into otherwise. -/
def mask_dict : List (String × Value) → List String →
    Except String (List (String × Value) × List String)
  | [], mf => .ok ([], mf)
  | (k, v) :: rest, mf =>
    if k ∈ SENSITIVE_FIELDS then do
      let w ←
        if k = "account_number" then mask_account_number v
        else if k = "email" ∨ k = "recipient_email" then mask_email v
        else hash_value v
      let p ← mask_dict rest (addField mf k)
      .ok ((k, w) :: p.1, p.2)
    else if k ∈ PARTIAL_MASK_FIELDS then
      if k = "client_name" then do
        let w ← mask_client_name v
        let p ← mask_dict rest (addField mf k)
        .ok ((k, w) :: p.1, p.2)
      else do
        let p ← mask_dict rest (addField mf k)
        .ok p
    else do
      let q ← mask_sensitive_data v mf
      let p ← mask_dict rest q.2
      .ok ((k, q.1) :: p.1, p.2)
termination_by structural d => d

/-- The list comprehension of `mask_sensitive_data`: every element is masked
with the same (mutated) masked_fields set, in order. -/
def mask_list : List Value → List String →
    Except String (List Value × List String)
  | [], mf => .ok ([], mf)
  | v :: rest, mf => do
    let q ← mask_sensitive_data v mf
    let p ← mask_list rest q.2
    .ok (q.1 :: p.1, p.2)
termination_by structural l => l

end

/-- A top-level call `mask_sensitive_data(data)` with the default
`masked_fields=None`, which the function replaces by a fresh empty set; the
caller sees only the returned value. -/
def maskData (v : Value) : Except String Value :=
  (mask_sensitive_data v []).map Prod.fst

mutual

/-- Same container shape: mappings have the same keys in the same order with
same-shaped values, sequences have the same length with same-shaped elements,
and scalars correspond to scalars. -/
def sameShape : Value → Value → Bool
  | .dict d1, .dict d2 => sameShapeDict d1 d2
  | .list l1, .list l2 => sameShapeList l1 l2
  | .dict _, _ => false
  | .list _, _ => false
  | _, .dict _ => false
  | _, .list _ => false
  | _, _ => true
termination_by structural v => v

/-- Shape comparison of dict entry lists, key for key. -/
def sameShapeDict : List (String × Value) → List (String × Value) → Bool
  | [], [] => true
  | (k1, v1) :: r1, (k2, v2) :: r2 =>
    k1 = k2 && sameShape v1 v2 && sameShapeDict r1 r2
  | _, _ => false
termination_by structural d => d

/-- Shape comparison of value lists, element for element. -/
def sameShapeList : List Value → List Value → Bool
  | [], [] => true
  | v1 :: r1, v2 :: r2 => sameShape v1 v2 && sameShapeList r1 r2
  | _, _ => false
termination_by structural l => l

end

mutual

/-- Every value stored directly under a sensitive or partial-mask key,
anywhere in the structure, is a string. -/
def strUnderSens : Value → Bool
  | .dict d => strUnderSensDict d
  | .list l => strUnderSensList l
  | _ => true
termination_by structural v => v

/-- strUnderSens over the entries of a dict. -/
def strUnderSensDict : List (String × Value) → Bool
  | [] => true
  | (k, v) :: rest =>
    (if SENSITIVE_FIELDS.contains k || PARTIAL_MASK_FIELDS.contains k then
      (match v with | .str _ => true | _ => false)
    else strUnderSens v) && strUnderSensDict rest
termination_by structural d => d

/-- strUnderSens over the elements of a list. -/
def strUnderSensList : List Value → Bool
  | [] => true
  | v :: rest => strUnderSens v && strUnderSensList rest
termination_by structural l => l

end

mutual

/-- Safe content: no key from the sensitive or partial-mask field sets at
any nesting level, and no string that fully matches a sensitive pattern. -/
def safeValue : Value → Bool
  | .dict d => safeDict d
  | .list l => safeList l
  | .str s => !accFullmatch s && !cidFullmatch s && !emailFullmatch s
  | _ => true
termination_by structural v => v

/-- safeValue over the entries of a dict. -/
def safeDict : List (String × Value) → Bool
  | [] => true
  | (k, v) :: rest =>
    !SENSITIVE_FIELDS.contains k && !PARTIAL_MASK_FIELDS.contains k &&
      safeValue v && safeDict rest
termination_by structural d => d

/-- safeValue over the elements of a list. -/
def safeList : List Value → Bool
  | [] => true
  | v :: rest => safeValue v && safeList rest
termination_by structural l => l

end

theorem ok_bind {α β : Type} (a : α) (f : α → Except String β) :
    (Except.ok a : Except String α) >>= f = f a := rfl

theorem error_bind {α β : Type} (e : String) (f : α → Except String β) :
    (Except.error e : Except String α) >>= f = Except.error e := rfl

theorem map_ok {α β : Type} (f : α → β) (a : α) :
    (Except.ok a : Except String α).map f = .ok (f a) := rfl

theorem map_error {α β : Type} (f : α → β) (e : String) :
    (Except.error e : Except String α).map f = (.error e : Except String β) := rfl

mutual

theorem maskV_safe (v : Value) (mf : List String) (h : safeValue v = true) :
    mask_sensitive_data v mf = .ok (v, mf) := by
  match v with
  | .dict d =>
    simp only [mask_sensitive_data]
    rw [maskD_safe d mf (by simpa [safeValue] using h)]
    rfl
  | .list l =>
    simp only [mask_sensitive_data]
    rw [maskL_safe l mf (by simpa [safeValue] using h)]
    rfl
  | .str s =>
    simp only [safeValue, Bool.and_eq_true, Bool.not_eq_true'] at h
    simp [mask_sensitive_data, h.1.1, h.1.2, h.2]
  | .int n => rfl
  | .bool b => rfl
  | .none => rfl
termination_by structural v

theorem maskD_safe (d : List (String × Value)) (mf : List String)
    (h : safeDict d = true) : mask_dict d mf = .ok (d, mf) := by
  match d with
  | [] => rfl
  | (k, v) :: rest =>
    simp only [safeDict, Bool.and_eq_true, Bool.not_eq_true'] at h
    have h1 : ¬(k ∈ SENSITIVE_FIELDS) := by simpa using h.1.1.1
    have h2 : ¬(k ∈ PARTIAL_MASK_FIELDS) := by simpa using h.1.1.2
    simp only [mask_dict]
    rw [if_neg h1, if_neg h2, maskV_safe v mf h.1.2, ok_bind,
      maskD_safe rest mf h.2, ok_bind]
termination_by structural d

theorem maskL_safe (l : List Value) (mf : List String)
    (h : safeList l = true) : mask_list l mf = .ok (l, mf) := by
  match l with
  | [] => rfl
  | v :: rest =>
    simp only [safeList, Bool.and_eq_true] at h
    simp only [mask_list]
    rw [maskV_safe v mf h.1, ok_bind, maskL_safe rest mf h.2, ok_bind]
termination_by structural l

end

/-- Binds whose continuation only conses a fixed element preserve the
relation of having equal value components. -/
theorem fst_rel_bind_cons {β γ : Type}
    (x y : Except String (β × List String))
    (hxy : x.map Prod.fst = y.map Prod.fst) (g : β → γ) :
    (x >>= fun p =>
        (Except.ok (g p.1, p.2) : Except String (γ × List String))).map Prod.fst =
      (y >>= fun p => Except.ok (g p.1, p.2)).map Prod.fst := by
  cases x <;> cases y <;>
    simp [map_ok, map_error, ok_bind, error_bind] at hxy ⊢ <;> simp [hxy]

/-- Mapping a function over the value component preserves the relation of
having equal value components. -/
theorem fst_rel_map {β γ : Type}
    (x y : Except String (β × List String))
    (hxy : x.map Prod.fst = y.map Prod.fst) (g : β → γ) :
    ((x.map fun p => (g p.1, p.2)).map Prod.fst) =
      ((y.map fun p => (g p.1, p.2)).map Prod.fst) := by
  cases x <;> cases y <;>
    simp [map_ok, map_error] at hxy ⊢ <;> simp [hxy]

/-- A two-step bind (mask a value, then continue with the accumulator it
returns) preserves the relation when the continuation does so for any two
accumulators. -/
theorem fst_rel_bind_two {β γ : Type}
    (x y : Except String (Value × List String))
    (hxy : x.map Prod.fst = y.map Prod.fst)
    (f : List String → Except String (β × List String))
    (hf : ∀ S T, (f S).map Prod.fst = (f T).map Prod.fst)
    (g : Value → β → γ) :
    (x >>= fun q => f q.2 >>= fun p =>
        (Except.ok (g q.1 p.1, p.2) : Except String (γ × List String))).map Prod.fst =
      (y >>= fun q => f q.2 >>= fun p => Except.ok (g q.1 p.1, p.2)).map Prod.fst := by
  cases x with
  | error e =>
    cases y with
    | error e' =>
      simp [map_error] at hxy
      simp [error_bind, map_error, hxy]
    | ok q => simp [map_ok, map_error] at hxy
  | ok q =>
    cases y with
    | error e' => simp [map_ok, map_error] at hxy
    | ok q' =>
      simp only [ok_bind]
      simp [map_ok] at hxy
      rw [hxy]
      exact fst_rel_bind_cons (f q.2) (f q'.2) (hf q.2 q'.2) (g q'.1)

mutual

theorem maskV_state (v : Value) (S T : List String) :
    (mask_sensitive_data v S).map Prod.fst =
      (mask_sensitive_data v T).map Prod.fst := by
  match v with
  | .dict d =>
    simp only [mask_sensitive_data]
    exact fst_rel_map _ _ (maskD_state d S T) Value.dict
  | .list l =>
    simp only [mask_sensitive_data]
    exact fst_rel_map _ _ (maskL_state l S T) Value.list
  | .str s =>
    simp only [mask_sensitive_data]
    cases h1 : accFullmatch s with
    | true =>
      simp only [h1, if_true]
      cases mask_account_number (.str s) <;> simp [map_ok, map_error]
    | false =>
      simp only [h1, Bool.false_eq_true, if_false]
      cases h2 : cidFullmatch s with
      | true =>
        simp only [h2, if_true]
        cases hash_value (.str s) <;> simp [map_ok, map_error]
      | false =>
        simp only [h2, Bool.false_eq_true, if_false]
        cases h3 : emailFullmatch s with
        | true =>
          simp only [h3, if_true]
          cases mask_email (.str s) <;> simp [map_ok, map_error]
        | false =>
          simp only [h3, Bool.false_eq_true, if_false]
          rfl
  | .int n => rfl
  | .bool b => rfl
  | .none => rfl
termination_by structural v

theorem maskD_state (d : List (String × Value)) (S T : List String) :
    (mask_dict d S).map Prod.fst = (mask_dict d T).map Prod.fst := by
  match d with
  | [] => rfl
  | (k, v) :: rest =>
    simp only [mask_dict]
    by_cases hk : k ∈ SENSITIVE_FIELDS
    · rw [if_pos hk, if_pos hk]
      by_cases ha : k = "account_number"
      · rw [if_pos ha, if_pos ha]
        cases hF : mask_account_number v with
        | error e => rfl
        | ok w =>
          simp only [ok_bind]
          exact fst_rel_bind_cons _ _
            (maskD_state rest (addField S k) (addField T k))
            (fun p1 => (k, w) :: p1)
      · rw [if_neg ha, if_neg ha]
        by_cases he : k = "email" ∨ k = "recipient_email"
        · rw [if_pos he, if_pos he]
          cases hF : mask_email v with
          | error e => rfl
          | ok w =>
            simp only [ok_bind]
            exact fst_rel_bind_cons _ _
              (maskD_state rest (addField S k) (addField T k))
              (fun p1 => (k, w) :: p1)
        · rw [if_neg he, if_neg he]
          cases hF : hash_value v with
          | error e => rfl
          | ok w =>
            simp only [ok_bind]
            exact fst_rel_bind_cons _ _
              (maskD_state rest (addField S k) (addField T k))
              (fun p1 => (k, w) :: p1)
    · rw [if_neg hk, if_neg hk]
      by_cases hp : k ∈ PARTIAL_MASK_FIELDS
      · rw [if_pos hp, if_pos hp]
        have hc : k = "client_name" := by simpa [PARTIAL_MASK_FIELDS] using hp
        rw [if_pos hc, if_pos hc]
        cases hF : mask_client_name v with
        | error e => rfl
        | ok w =>
          simp only [ok_bind]
          exact fst_rel_bind_cons _ _
            (maskD_state rest (addField S k) (addField T k))
            (fun p1 => (k, w) :: p1)
      · rw [if_neg hp, if_neg hp]
        exact fst_rel_bind_two _ _ (maskV_state v S T) (mask_dict rest)
          (fun S' T' => maskD_state rest S' T') (fun q1 p1 => (k, q1) :: p1)
termination_by structural d

theorem maskL_state (l : List Value) (S T : List String) :
    (mask_list l S).map Prod.fst = (mask_list l T).map Prod.fst := by
  match l with
  | [] => rfl
  | v :: rest =>
    simp only [mask_list]
    exact fst_rel_bind_two _ _ (maskV_state v S T) (mask_list rest)
      (fun S' T' => maskL_state rest S' T') (fun q1 p1 => q1 :: p1)
termination_by structural l

end

theorem mask_account_number_str (s : String) (w : Value)
    (h : mask_account_number (.str s) = .ok w) : ∃ t, w = .str t := by
  simp only [mask_account_number, pyFalsy] at h
  repeat' split at h
  all_goals injection h with h; exact ⟨_, h.symm⟩

theorem mask_email_str (s : String) (w : Value)
    (h : mask_email (.str s) = .ok w) : ∃ t, w = .str t := by
  simp only [mask_email, pyFalsy] at h
  repeat' split at h
  all_goals injection h with h; exact ⟨_, h.symm⟩

theorem hash_value_str (s : String) (w : Value)
    (h : hash_value (.str s) = .ok w) : ∃ t, w = .str t := by
  simp only [hash_value, pyFalsy] at h
  repeat' split at h
  all_goals injection h with h; exact ⟨_, h.symm⟩

theorem mask_client_name_str (s : String) (w : Value)
    (h : mask_client_name (.str s) = .ok w) : ∃ t, w = .str t := by
  simp only [mask_client_name, pyFalsy] at h
  repeat' split at h
  all_goals first
    | (injection h with h; exact ⟨_, h.symm⟩)
    | simp at h

/-- Inverting the masker's transform-then-recurse bind. -/
theorem bind_val_cons_ok_inv {γ : Type} (x : Except String Value)
    (f : Except String (List (String × Value) × List String))
    (g : Value → List (String × Value) → γ) (res : γ) (mf' : List String)
    (h : (x >>= fun w => f >>= fun p =>
        (Except.ok (g w p.1, p.2) : Except String (γ × List String))) =
      .ok (res, mf')) :
    ∃ w p, x = .ok w ∧ f = .ok p ∧ res = g w p.1 ∧ mf' = p.2 := by
  cases x with
  | error e => simp [error_bind] at h
  | ok w =>
    rw [ok_bind] at h
    cases hf : f with
    | error e => rw [hf, error_bind] at h; simp at h
    | ok p =>
      rw [hf, ok_bind] at h
      injection h with h
      simp only [Prod.mk.injEq] at h
      exact ⟨w, p, rfl, rfl, h.1.symm, h.2.symm⟩

/-- Inverting the masker's recurse-then-recurse bind. -/
theorem bind_two_ok_inv {β γ : Type} (x : Except String (Value × List String))
    (f : List String → Except String (β × List String)) (g : Value → β → γ)
    (res : γ) (mf' : List String)
    (h : (x >>= fun q => f q.2 >>= fun p =>
        (Except.ok (g q.1 p.1, p.2) : Except String (γ × List String))) =
      .ok (res, mf')) :
    ∃ q p, x = .ok q ∧ f q.2 = .ok p ∧ res = g q.1 p.1 ∧ mf' = p.2 := by
  cases x with
  | error e => simp [error_bind] at h
  | ok q =>
    rw [ok_bind] at h
    cases hf : f q.2 with
    | error e => rw [hf, error_bind] at h; simp at h
    | ok p =>
      rw [hf, ok_bind] at h
      injection h with h
      simp only [Prod.mk.injEq] at h
      exact ⟨q, p, rfl, hf, h.1.symm, h.2.symm⟩

mutual

theorem maskV_shape (v : Value) (mf mf' : List String) (out : Value)
    (hs : strUnderSens v = true)
    (h : mask_sensitive_data v mf = .ok (out, mf')) :
    sameShape v out = true := by
  match v with
  | .dict d =>
    simp only [mask_sensitive_data] at h
    cases hd : mask_dict d mf with
    | error e => rw [hd, map_error] at h; simp at h
    | ok p =>
      rw [hd, map_ok] at h
      injection h with h
      simp only [Prod.mk.injEq] at h
      rw [← h.1]
      simp only [sameShape]
      exact maskD_shape d mf p.2 p.1 (by simpa [strUnderSens] using hs) hd
  | .list l =>
    simp only [mask_sensitive_data] at h
    cases hd : mask_list l mf with
    | error e => rw [hd, map_error] at h; simp at h
    | ok p =>
      rw [hd, map_ok] at h
      injection h with h
      simp only [Prod.mk.injEq] at h
      rw [← h.1]
      simp only [sameShape]
      exact maskL_shape l mf p.2 p.1 (by simpa [strUnderSens] using hs) hd
  | .str s =>
    simp only [mask_sensitive_data] at h
    cases h1 : accFullmatch s with
    | true =>
      rw [h1] at h
      simp only [if_true] at h
      cases hA : mask_account_number (.str s) with
      | error e => rw [hA, map_error] at h; simp at h
      | ok w =>
        rw [hA, map_ok] at h
        injection h with h
        simp only [Prod.mk.injEq] at h
        obtain ⟨t, ht⟩ := mask_account_number_str s w hA
        rw [← h.1, ht]
        rfl
    | false =>
      rw [h1] at h
      simp only [Bool.false_eq_true, if_false] at h
      cases h2 : cidFullmatch s with
      | true =>
        rw [h2] at h
        simp only [if_true] at h
        cases hA : hash_value (.str s) with
        | error e => rw [hA, map_error] at h; simp at h
        | ok w =>
          rw [hA, map_ok] at h
          injection h with h
          simp only [Prod.mk.injEq] at h
          obtain ⟨t, ht⟩ := hash_value_str s w hA
          rw [← h.1, ht]
          rfl
      | false =>
        rw [h2] at h
        simp only [Bool.false_eq_true, if_false] at h
        cases h3 : emailFullmatch s with
        | true =>
          rw [h3] at h
          simp only [if_true] at h
          cases hA : mask_email (.str s) with
          | error e => rw [hA, map_error] at h; simp at h
          | ok w =>
            rw [hA, map_ok] at h
            injection h with h
            simp only [Prod.mk.injEq] at h
            obtain ⟨t, ht⟩ := mask_email_str s w hA
            rw [← h.1, ht]
            rfl
        | false =>
          rw [h3] at h
          simp only [Bool.false_eq_true, if_false] at h
          injection h with h
          simp only [Prod.mk.injEq] at h
          rw [← h.1]
          rfl
  | .int n =>
    injection h with h
    simp only [Prod.mk.injEq] at h
    rw [← h.1]
    rfl
  | .bool b =>
    injection h with h
    simp only [Prod.mk.injEq] at h
    rw [← h.1]
    rfl
  | .none =>
    injection h with h
    simp only [Prod.mk.injEq] at h
    rw [← h.1]
    rfl
termination_by structural v

theorem maskD_shape (d : List (String × Value)) (mf mf' : List String)
    (res : List (String × Value))
    (hs : strUnderSensDict d = true)
    (h : mask_dict d mf = .ok (res, mf')) :
    sameShapeDict d res = true := by
  match d with
  | [] =>
    injection h with h
    simp only [Prod.mk.injEq] at h
    rw [← h.1]
    rfl
  | (k, v) :: rest =>
    simp only [strUnderSensDict, Bool.and_eq_true] at hs
    simp only [mask_dict] at h
    by_cases hk : k ∈ SENSITIVE_FIELDS
    · rw [if_pos hk] at h
      have hcont : (SENSITIVE_FIELDS.contains k ||
          PARTIAL_MASK_FIELDS.contains k) = true := by
        simp only [Bool.or_eq_true]
        exact Or.inl (by simpa using hk)
      rw [hcont] at hs
      simp only [if_true] at hs
      have hvs : ∃ s, v = .str s := by
        cases v <;> simp_all
      obtain ⟨s, rfl⟩ := hvs
      by_cases ha : k = "account_number"
      · rw [if_pos ha] at h
        obtain ⟨w, p, hw, hp, hres, hmf⟩ := bind_val_cons_ok_inv _ _ _ _ _ h
        obtain ⟨t, ht⟩ := mask_account_number_str s w hw
        rw [hres, ht]
        simp only [sameShapeDict, Bool.and_eq_true]
        exact ⟨⟨by simp, rfl⟩, maskD_shape rest (addField mf k) p.2 p.1 hs.2 hp⟩
      · rw [if_neg ha] at h
        by_cases he : k = "email" ∨ k = "recipient_email"
        · rw [if_pos he] at h
          obtain ⟨w, p, hw, hp, hres, hmf⟩ := bind_val_cons_ok_inv _ _ _ _ _ h
          obtain ⟨t, ht⟩ := mask_email_str s w hw
          rw [hres, ht]
          simp only [sameShapeDict, Bool.and_eq_true]
          exact ⟨⟨by simp, rfl⟩, maskD_shape rest (addField mf k) p.2 p.1 hs.2 hp⟩
        · rw [if_neg he] at h
          obtain ⟨w, p, hw, hp, hres, hmf⟩ := bind_val_cons_ok_inv _ _ _ _ _ h
          obtain ⟨t, ht⟩ := hash_value_str s w hw
          rw [hres, ht]
          simp only [sameShapeDict, Bool.and_eq_true]
          exact ⟨⟨by simp, rfl⟩, maskD_shape rest (addField mf k) p.2 p.1 hs.2 hp⟩
    · rw [if_neg hk] at h
      by_cases hp' : k ∈ PARTIAL_MASK_FIELDS
      · rw [if_pos hp'] at h
        have hcont : (SENSITIVE_FIELDS.contains k ||
            PARTIAL_MASK_FIELDS.contains k) = true := by
          simp only [Bool.or_eq_true]
          exact Or.inr (by simpa using hp')
        rw [hcont] at hs
        simp only [if_true] at hs
        have hvs : ∃ s, v = .str s := by
          cases v <;> simp_all
        obtain ⟨s, rfl⟩ := hvs
        have hc : k = "client_name" := by simpa [PARTIAL_MASK_FIELDS] using hp'
        rw [if_pos hc] at h
        obtain ⟨w, p, hw, hpp, hres, hmf⟩ := bind_val_cons_ok_inv _ _ _ _ _ h
        obtain ⟨t, ht⟩ := mask_client_name_str s w hw
        rw [hres, ht]
        simp only [sameShapeDict, Bool.and_eq_true]
        exact ⟨⟨by simp, rfl⟩, maskD_shape rest (addField mf k) p.2 p.1 hs.2 hpp⟩
      · rw [if_neg hp'] at h
        have hcont : (SENSITIVE_FIELDS.contains k ||
            PARTIAL_MASK_FIELDS.contains k) = false := by
          simp only [Bool.or_eq_false_iff]
          constructor
          · simpa using hk
          · simpa using hp'
        rw [hcont] at hs
        simp only [Bool.false_eq_true, if_false] at hs
        obtain ⟨q, p, hq, hpp, hres, hmf⟩ :=
          bind_two_ok_inv _ _ (fun q1 p1 => (k, q1) :: p1) _ _ h
        rw [hres]
        simp only [sameShapeDict, Bool.and_eq_true]
        exact ⟨⟨by simp, maskV_shape v mf q.2 q.1 hs.1 hq⟩,
          maskD_shape rest q.2 p.2 p.1 hs.2 hpp⟩
termination_by structural d

theorem maskL_shape (l : List Value) (mf mf' : List String)
    (res : List Value)
    (hs : strUnderSensList l = true)
    (h : mask_list l mf = .ok (res, mf')) :
    sameShapeList l res = true := by
  match l with
  | [] =>
    injection h with h
    simp only [Prod.mk.injEq] at h
    rw [← h.1]
    rfl
  | v :: rest =>
    simp only [strUnderSensList, Bool.and_eq_true] at hs
    simp only [mask_list] at h
    obtain ⟨q, p, hq, hpp, hres, hmf⟩ := bind_two_ok_inv _ _ _ _ _ h
    rw [hres]
    simp only [sameShapeList, Bool.and_eq_true]
    exact ⟨maskV_shape v mf q.2 q.1 hs.1 hq,
      maskL_shape rest q.2 p.2 p.1 hs.2 hpp⟩
termination_by structural l

end

theorem length_md5bytes (msg : List Nat) : (md5bytes msg).length = 16 := by
  simp [md5bytes, le32bytes]

theorem length_flatMap_byteHex (l : List Nat) :
    (l.flatMap byteHex).length = 2 * l.length := by
  induction l with
  | nil => rfl
  | cons b t ih =>
    simp only [List.flatMap_cons, List.length_append, List.length_cons, ih, byteHex]
    simp
    ring

theorem length_md5hexChars (msg : List Nat) : (md5hexChars msg).length = 32 := by
  rw [md5hexChars, length_flatMap_byteHex, length_md5bytes]

theorem isHexDigit_hexChar :
    ∀ n < 16, ((hexChar n).isDigit || ('a' ≤ hexChar n && hexChar n ≤ 'f')) = true := by
  decide

theorem mem_md5hexChars_hex (msg : List Nat) (c : Char)
    (hc : c ∈ md5hexChars msg) :
    (c.isDigit || ('a' ≤ c && c ≤ 'f')) = true := by
  simp only [md5hexChars, List.mem_flatMap] at hc
  obtain ⟨b, _, hb⟩ := hc
  simp only [byteHex, List.mem_cons, List.not_mem_nil, or_false] at hb
  rcases hb with h | h <;> rw [h] <;>
    exact isHexDigit_hexChar _ (Nat.mod_lt _ (by norm_num))

theorem drop_length_sub_one {α : Type} :
    ∀ (l : List α) (h : l ≠ []), l.drop (l.length - 1) = [l.getLast h]
  | [a], _ => rfl
  | a :: b :: t, _ => by
    have ih := drop_length_sub_one (b :: t) (List.cons_ne_nil _ _)
    simp only [List.length_cons] at ih ⊢
    rw [List.getLast_cons (List.cons_ne_nil _ _)]
    simpa using ih

theorem wordsAux_ne_nil :
    ∀ (cs cur : List Char), ∀ p ∈ wordsAux cs cur, p ≠ "" := by
  intro cs
  induction cs with
  | nil =>
    intro cur p hp
    simp only [wordsAux] at hp
    split at hp
    · simp at hp
    · simp only [List.mem_singleton] at hp
      subst hp
      intro hcon
      have : cur.reverse = [] := by
        have := congrArg String.data hcon
        simpa using this
      simp only [List.reverse_eq_nil_iff] at this
      simp [this] at *
  | cons c rest ih =>
    intro cur p hp
    simp only [wordsAux] at hp
    split at hp
    · split at hp
      · exact ih [] p hp
      · rcases List.mem_cons.mp hp with h | h
        · subst h
          intro hcon
          have : cur.reverse = [] := by
            have := congrArg String.data hcon
            simpa using this
          simp only [List.reverse_eq_nil_iff] at this
          simp [this] at *
        · exact ih [] p h
    · exact ih (c :: cur) p hp

theorem pySplit_ne_nil (s : String) : ∀ p ∈ pySplit s, p ≠ "" :=
  wordsAux_ne_nil s.toList []

/-- C1 (amended): for every record in which the value stored under any
sensitive or partial-mask key is a string, a successful top-level masking
call returns a value of identical container shape (same keys per mapping in
the same order, same sequence lengths, same nesting); only scalar leaves
are altered. -/
theorem C1_structure_preservation (v out : Value)
    (hs : strUnderSens v = true) (h : maskData v = .ok out) :
    sameShape v out = true := by
  unfold maskData at h
  cases hm : mask_sensitive_data v [] with
  | error e => rw [hm, map_error] at h; exact absurd h (by simp)
  | ok p =>
    rw [hm, map_ok] at h
    injection h with h
    rw [← h]
    exact maskV_shape v [] p.2 p.1 hs (by rw [hm])

/-- Witness for C1 at a concrete nested record. -/
theorem C1_structure_preservation_witness :
    strUnderSens (.dict [("account_number", .str "ACC99"),
      ("notes", .list [.int 1, .none])]) = true ∧
    maskData (.dict [("account_number", .str "ACC99"),
      ("notes", .list [.int 1, .none])]) =
      .ok (.dict [("account_number", .str "XCC99"),
        ("notes", .list [.int 1, .none])]) ∧
    sameShape (.dict [("account_number", .str "ACC99"),
      ("notes", .list [.int 1, .none])])
      (.dict [("account_number", .str "XCC99"),
        ("notes", .list [.int 1, .none])]) = true :=
  ⟨rfl, rfl, C1_structure_preservation _ _ rfl rfl⟩

/-- Counterexample to C1 as stated: a mapping stored under the key
account_number is replaced by the scalar string "****" (Python len works on
a dict), so the output does not have the shape of the input. -/
theorem C1_counterexample :
    maskData (.dict [("account_number", .dict [("a", .int 1), ("b", .int 2)])]) =
      .ok (.dict [("account_number", .str "****")]) ∧
    sameShape (.dict [("account_number", .dict [("a", .int 1), ("b", .int 2)])])
      (.dict [("account_number", .str "****")]) = false :=
  ⟨rfl, rfl⟩

/-- C2 (amended): the pass-through guard of every field-specific transform
returns falsy values (empty string, zero, False, None, empty containers)
unchanged without error; truthy non-string values are not caught by the
guard and can raise. -/
theorem C2_falsy_passthrough (v : Value) (h : pyFalsy v = true) :
    mask_account_number v = .ok v ∧ mask_email v = .ok v ∧
      mask_client_name v = .ok v ∧ hash_value v = .ok v := by
  refine ⟨?_, ?_, ?_, ?_⟩ <;>
    simp [mask_account_number, mask_email, mask_client_name, hash_value, h]

/-- Witness for C2 at the falsy non-string scalar 0. -/
theorem C2_falsy_passthrough_witness :
    pyFalsy (.int 0) = true ∧
    (mask_account_number (.int 0) = .ok (.int 0) ∧
      mask_email (.int 0) = .ok (.int 0) ∧
      mask_client_name (.int 0) = .ok (.int 0) ∧
      hash_value (.int 0) = .ok (.int 0)) :=
  ⟨rfl, C2_falsy_passthrough (.int 0) rfl⟩

/-- Counterexample to C2 as stated: a truthy number stored under
account_number reaches len() and raises TypeError, so mask_sensitive_data
is not total and non-string scalars under a sensitive key are not always
passed through. -/
theorem C2_counterexample :
    maskData (.dict [("account_number", .int 12345)]) =
      .error "TypeError: object of this type has no len()" := rfl

/-- C4: string classification is a full-string match with precedence
account-number, then client-id, then email: the bare string ACC123456 is
masked as an account number even outside any named field, ACC12AB (which
only embeds a pattern) is returned unchanged, and any string matching no
pattern is returned unchanged. -/
theorem C4_pattern_dispatch :
    maskData (.str "ACC123456") = .ok (.str "XXXXX3456") ∧
    maskData (.str "ACC12AB") = .ok (.str "ACC12AB") ∧
    accFullmatch "ACC123456" = true ∧
    accFullmatch "ACC12AB" = false ∧
    ∀ s : String, accFullmatch s = false → cidFullmatch s = false →
      emailFullmatch s = false → maskData (.str s) = .ok (.str s) := by
  refine ⟨rfl, rfl, rfl, rfl, ?_⟩
  intro s h1 h2 h3
  simp [maskData, mask_sensitive_data, h1, h2, h3, map_ok]

/-- Witness for C4 at a pattern-free concrete string. -/
theorem C4_pattern_dispatch_witness :
    accFullmatch "hello world" = false ∧ cidFullmatch "hello world" = false ∧
    emailFullmatch "hello world" = false ∧
    maskData (.str "hello world") = .ok (.str "hello world") :=
  ⟨rfl, rfl, rfl, C4_pattern_dispatch.2.2.2.2 "hello world" rfl rfl rfl⟩

/-- C8: masking a record that contains no sensitive or partial-mask keys
and no string fully matching a sensitive pattern returns it unchanged. -/
theorem C8_idempotence_on_safe (v : Value) (h : safeValue v = true) :
    maskData v = .ok v := by
  unfold maskData
  rw [maskV_safe v [] h]
  rfl

/-- Witness for C8 at a concrete safe record. -/
theorem C8_idempotence_on_safe_witness :
    safeValue (.dict [("advisor_name", .str "Jane Doe"),
      ("summary", .list [.int 3, .str "all good"])]) = true ∧
    maskData (.dict [("advisor_name", .str "Jane Doe"),
      ("summary", .list [.int 3, .str "all good"])]) =
      .ok (.dict [("advisor_name", .str "Jane Doe"),
        ("summary", .list [.int 3, .str "all good"])]) :=
  ⟨rfl, C8_idempotence_on_safe _ rfl⟩

/-- C9: the end-to-end scenario record masks client_name to B. Williams,
masks account_number keeping its last four characters 9012 and its length,
and leaves the free-text notes (with embedded C002 and ACC789012 tokens)
unchanged. -/
theorem C9_end_to_end :
    maskData (.dict [("client_name", .str "Bob Williams"),
      ("account_number", .str "ACC789012"),
      ("notes", .str "contact C002 re ACC789012")]) =
      .ok (.dict [("client_name", .str "B. Williams"),
        ("account_number", .str "XXXXX9012"),
        ("notes", .str "contact C002 re ACC789012")]) ∧
    ("XXXXX9012" : String).length = ("ACC789012" : String).length ∧
    ("XXXXX9012" : String).toList.drop 5 = ("ACC789012" : String).toList.drop 5 :=
  ⟨rfl, rfl, rfl⟩

/-- C10: the returned masked value is independent of the masked-fields
accumulator passed in; passing any set gives the same value the default
(fresh empty set) call produces. -/
theorem C10_accumulator_independence (v : Value) (S T : List String) :
    (mask_sensitive_data v S).map Prod.fst =
      (mask_sensitive_data v T).map Prod.fst ∧
    (mask_sensitive_data v S).map Prod.fst = maskData v :=
  ⟨maskV_state v S T, maskV_state v S []⟩

/-- C3 (amended): empty names and names containing no space character pass
through unchanged (so Alice stays Alice); a name containing a space whose
whitespace split has a single part yields its first character plus the
fixed three-character mask; a name whose split has two or more parts yields
the first character of the first part, a period, a space, and the final
part verbatim. -/
theorem C3_name_masking :
    mask_client_name (.str "") = .ok (.str "") ∧
    mask_client_name (.str "Alice Marie Johnson") = .ok (.str "A. Johnson") ∧
    (∀ s : String, ' ' ∉ s.toList → mask_client_name (.str s) = .ok (.str s)) ∧
    (∀ s p, ' ' ∈ s.toList → pySplit s = [p] →
      mask_client_name (.str s) =
        .ok (.str (String.mk (p.toList.take 1 ++ ['*', '*', '*'])))) ∧
    (∀ s p ps, ' ' ∈ s.toList → pySplit s = p :: ps → ps ≠ [] →
      mask_client_name (.str s) =
        .ok (.str (String.mk (p.toList.take 1 ++ '.' :: ' ' ::
          ((p :: ps).getLast (List.cons_ne_nil p ps)).toList)))) := by
  refine ⟨rfl, rfl, ?_, ?_, ?_⟩
  · intro s h
    have h' : ' ' ∉ s.data := h
    simp [mask_client_name, pyFalsy, h']
  · intro s p hsp hsplit
    have hsne : s ≠ "" := by intro hh; rw [hh] at hsp; simp at hsp
    have hcont : s.toList.contains ' ' = true := by simpa using hsp
    have hpne : p ≠ "" := pySplit_ne_nil s p (by rw [hsplit]; simp)
    simp only [mask_client_name, pyFalsy]
    rw [hsplit]
    cases hp : p.toList with
    | nil =>
      exfalso
      apply hpne
      obtain ⟨l⟩ := p
      simp only [String.toList] at hp
      simp [hp]
    | cons c cs =>
      have hsp' : ' ' ∈ s.data := hsp
      have hp' : p.data = c :: cs := hp
      simp [hsne, hsp', hp']
  · intro s p ps hsp hsplit hps
    have hsne : s ≠ "" := by intro hh; rw [hh] at hsp; simp at hsp
    have hcont : s.toList.contains ' ' = true := by simpa using hsp
    have hpne : p ≠ "" := pySplit_ne_nil s p (by rw [hsplit]; simp)
    simp only [mask_client_name, pyFalsy]
    rw [hsplit]
    cases ps with
    | nil => exact absurd rfl hps
    | cons q qs =>
      cases hp : p.toList with
      | nil =>
        exfalso
        apply hpne
        obtain ⟨l⟩ := p
        simp only [String.toList] at hp
        simp [hp]
      | cons c cs =>
        have hsp' : ' ' ∈ s.data := hsp
        have hp' : p.data = c :: cs := hp
        simp [hsne, hsp', hp']

/-- Witness for C3 at the concrete names Alice (single part, trailing
space) and Bob Williams. -/
theorem C3_name_masking_witness :
    (' ' ∈ ("Alice " : String).toList) ∧ pySplit "Alice " = ["Alice"] ∧
    mask_client_name (.str "Alice ") =
      .ok (.str (String.mk (("Alice" : String).toList.take 1 ++ ['*', '*', '*']))) ∧
    (' ' ∈ ("Bob Williams" : String).toList) ∧
    pySplit "Bob Williams" = ["Bob", "Williams"] ∧
    mask_client_name (.str "Bob Williams") =
      .ok (.str (String.mk (("Bob" : String).toList.take 1 ++ '.' :: ' ' ::
        (("Bob" :: ["Williams"]).getLast
          (List.cons_ne_nil "Bob" ["Williams"])).toList))) :=
  ⟨by decide, rfl,
    C3_name_masking.2.2.2.1 "Alice " "Alice" (by decide) rfl,
    by decide, rfl,
    C3_name_masking.2.2.2.2 "Bob Williams" "Bob" ["Williams"] (by decide) rfl
      (by simp)⟩

/-- Counterexample to C3 as stated: a non-empty name with no internal
whitespace is returned unchanged by the early guard, not replaced by its
first character plus a three-character mask. -/
theorem C3_counterexample :
    mask_client_name (.str "Alice") = .ok (.str "Alice") ∧
    ("Alice" : String) ≠ "A***" :=
  ⟨rfl, by decide⟩

/-- C5: account-number masking returns the fixed four-character mask for
non-empty strings of length at most four, and for longer strings a string
of the same total length made of filler characters followed by the last
four characters of the input verbatim; empty input passes through. -/
theorem C5_account_number_masking :
    mask_account_number (.str "") = .ok (.str "") ∧
    mask_account_number (.str "AB12") = .ok (.str "****") ∧
    mask_account_number (.str "ACC123456") = .ok (.str "XXXXX3456") ∧
    ∀ s : String, s ≠ "" →
      (s.length ≤ 4 → mask_account_number (.str s) = .ok (.str "****")) ∧
      (4 < s.length → ∃ t : String,
        mask_account_number (.str s) = .ok (.str t) ∧
        t.length = s.length ∧
        t.toList.drop (s.length - 4) = s.toList.drop (s.length - 4) ∧
        (t.toList.take (s.length - 4)).all (fun c => c = 'X') = true) := by
  refine ⟨rfl, rfl, rfl, ?_⟩
  intro s hs
  constructor
  · intro hlen
    simp [mask_account_number, pyFalsy, hs, hlen]
  · intro hlen
    refine ⟨String.mk (List.replicate (s.length - 4) 'X' ++
      s.toList.drop (s.length - 4)), ?_, ?_, ?_, ?_⟩
    · simp [mask_account_number, pyFalsy, hs, Nat.not_le.mpr hlen]
    · show (List.replicate (s.length - 4) 'X' ++
        s.toList.drop (s.length - 4)).length = s.length
      have hl : s.toList.length = s.length := rfl
      simp [List.length_append, List.length_replicate, List.length_drop, hl]
    · show (List.replicate (s.length - 4) 'X' ++
        s.toList.drop (s.length - 4)).drop (s.length - 4) =
        s.toList.drop (s.length - 4)
      have := List.drop_left (List.replicate (s.length - 4) 'X')
        (s.toList.drop (s.length - 4))
      rwa [List.length_replicate] at this
    · show ((List.replicate (s.length - 4) 'X' ++
        s.toList.drop (s.length - 4)).take (s.length - 4)).all
          (fun c => c = 'X') = true
      have ht := List.take_left (List.replicate (s.length - 4) 'X')
        (s.toList.drop (s.length - 4))
      rw [List.length_replicate] at ht
      rw [ht, List.all_eq_true]
      intro c hc
      simp only [List.mem_replicate] at hc
      simp [hc.2]

/-- Witness for C5 at a short and a long concrete account number. -/
theorem C5_account_number_masking_witness :
    (("AB" : String) ≠ "" ∧ ("AB" : String).length ≤ 4 ∧
      mask_account_number (.str "AB") = .ok (.str "****")) ∧
    (("ACC123456" : String) ≠ "" ∧ 4 < ("ACC123456" : String).length ∧
      ∃ t : String, mask_account_number (.str "ACC123456") = .ok (.str t) ∧
        t.length = ("ACC123456" : String).length ∧
        t.toList.drop (("ACC123456" : String).length - 4) =
          ("ACC123456" : String).toList.drop (("ACC123456" : String).length - 4) ∧
        (t.toList.take (("ACC123456" : String).length - 4)).all
          (fun c => c = 'X') = true) :=
  ⟨⟨by decide, by decide,
      (C5_account_number_masking.2.2.2 "AB" (by decide)).1 (by decide)⟩,
    ⟨by decide, by decide,
      (C5_account_number_masking.2.2.2 "ACC123456" (by decide)).2 (by decide)⟩⟩

/-- C6: email masking splits a string containing '@' at its first '@';
a local part of length at most two is replaced entirely by two mask
characters, otherwise its first and last characters are kept and every
character between them becomes a mask character; the domain part after the
first '@' is emitted unaltered; empty strings and strings without '@' pass
through unchanged. -/
theorem C6_email_masking :
    mask_email (.str "") = .ok (.str "") ∧
    mask_email (.str "jo@x.com") = .ok (.str "**@x.com") ∧
    mask_email (.str "johnsmith@x.com") = .ok (.str "j*******h@x.com") ∧
    (∀ s : String, '@' ∉ s.toList → mask_email (.str s) = .ok (.str s)) ∧
    ∀ s : String, '@' ∈ s.toList →
      (let u := s.toList.takeWhile (fun c => c ≠ '@')
       let dom := (s.toList.drop u.length).drop 1
       (u.length ≤ 2 → mask_email (.str s) =
         .ok (.str (String.mk ('*' :: '*' :: '@' :: dom)))) ∧
       (2 < u.length → ∃ t : String, mask_email (.str s) = .ok (.str t) ∧
         t.toList = u.take 1 ++ List.replicate (u.length - 2) '*' ++
           u.drop (u.length - 1) ++ '@' :: dom)) := by
  refine ⟨rfl, rfl, rfl, ?_, ?_⟩
  · intro s h
    have h' : '@' ∉ s.data := h
    simp [mask_email, pyFalsy, h']
  · intro s hsp
    have hsne : s ≠ "" := by intro hh; rw [hh] at hsp; simp at hsp
    have hsp' : '@' ∈ s.data := hsp
    constructor
    · intro hu
      have hu' : (List.takeWhile (fun c => !decide (c = '@')) s.data).length ≤ 2 := by
        simpa using hu
      simp only [mask_email, pyFalsy]
      simp [hsne, hsp', hu']
    · intro hu
      cases hc : s.toList.takeWhile (fun c => c ≠ '@') with
      | nil => rw [hc] at hu; simp at hu
      | cons c rest =>
        rw [hc] at hu
        refine ⟨String.mk (c :: (List.replicate ((c :: rest).length - 2) '*' ++
          [(c :: rest).getLast (List.cons_ne_nil c rest)]) ++
            '@' :: ((s.toList.drop (c :: rest).length).drop 1)), ?_, ?_⟩
        · simp only [mask_email, pyFalsy]
          have hc' : List.takeWhile (fun c => !decide (c = '@')) s.data = c :: rest := by
            simpa using hc
          have hrl : ¬(rest.length ≤ 1) := by
            simp only [List.length_cons] at hu
            omega
          simp [hsne, hsp', hc', hrl]
        · show c :: (List.replicate ((c :: rest).length - 2) '*' ++
            [(c :: rest).getLast (List.cons_ne_nil c rest)]) ++
              '@' :: ((s.toList.drop (c :: rest).length).drop 1) =
            (c :: rest).take 1 ++ List.replicate ((c :: rest).length - 2) '*' ++
              (c :: rest).drop ((c :: rest).length - 1) ++
              '@' :: ((s.toList.drop (c :: rest).length).drop 1)
          rw [drop_length_sub_one (c :: rest) (List.cons_ne_nil c rest)]
          simp

/-- Witness for C6 at a two-character and a nine-character local part. -/
theorem C6_email_masking_witness :
    ('@' ∈ ("jo@x.com" : String).toList ∧
      mask_email (.str "jo@x.com") = .ok (.str "**@x.com")) ∧
    ('@' ∈ ("johnsmith@x.com" : String).toList ∧
      ∃ t : String, mask_email (.str "johnsmith@x.com") = .ok (.str t) ∧
        t.toList =
          (("johnsmith@x.com" : String).toList.takeWhile
            (fun c => c ≠ '@')).take 1 ++
          List.replicate ((("johnsmith@x.com" : String).toList.takeWhile
            (fun c => c ≠ '@')).length - 2) '*' ++
          (("johnsmith@x.com" : String).toList.takeWhile
            (fun c => c ≠ '@')).drop
              ((("johnsmith@x.com" : String).toList.takeWhile
                (fun c => c ≠ '@')).length - 1) ++
          '@' :: ((("johnsmith@x.com" : String).toList.drop
            (("johnsmith@x.com" : String).toList.takeWhile
              (fun c => c ≠ '@')).length).drop 1)) :=
  ⟨⟨by decide, (C6_email_masking.2.2.2.2 "jo@x.com" (by decide)).1 (by decide)⟩,
    ⟨by decide,
      (C6_email_masking.2.2.2.2 "johnsmith@x.com" (by decide)).2 (by decide)⟩⟩

set_option maxRecDepth 8192 in
/-- C7: hash_value is a pure deterministic function; on a non-empty string
it returns exactly the first eight characters of the MD5 hexdigest of the
string's UTF-8 bytes, which is an eight-character lowercase hexadecimal
token, and the same input always yields the same token (C001 always maps to
928c6512); empty input passes through unchanged. -/
theorem C7_hash_value_deterministic :
    hash_value (.str "") = .ok (.str "") ∧
    hash_value (.str "C001") = .ok (.str "928c6512") ∧
    (∀ s : String, hash_value (.str s) = hash_value (.str s)) ∧
    ∀ s : String, s ≠ "" →
      hash_value (.str s) =
        .ok (.str (String.mk ((md5hexChars (strBytes s)).take 8))) ∧
      ∃ t : String, hash_value (.str s) = .ok (.str t) ∧
        t.length = 8 ∧
        t.toList = (md5hexChars (strBytes s)).take 8 ∧
        t.toList.all (fun c => c.isDigit || ('a' ≤ c && c ≤ 'f')) = true := by
  refine ⟨rfl, rfl, fun s => rfl, ?_⟩
  intro s hs
  constructor
  · simp [hash_value, pyFalsy, hs]
  · refine ⟨String.mk ((md5hexChars (strBytes s)).take 8),
      by simp [hash_value, pyFalsy, hs], ?_, rfl, ?_⟩
    · show (List.take 8 (md5hexChars (strBytes s))).length = 8
      rw [List.length_take, length_md5hexChars]
      rfl
    · show (List.take 8 (md5hexChars (strBytes s))).all
        (fun c => c.isDigit || ('a' ≤ c && c ≤ 'f')) = true
      rw [List.all_eq_true]
      intro c hc
      exact mem_md5hexChars_hex _ c (List.mem_of_mem_take hc)

/-- Witness for C7 at the concrete client id C001. -/
theorem C7_hash_value_deterministic_witness :
    (("C001" : String) ≠ "") ∧
    (hash_value (.str "C001") =
      .ok (.str (String.mk ((md5hexChars (strBytes "C001")).take 8))) ∧
    ∃ t : String, hash_value (.str "C001") = .ok (.str t) ∧
      t.length = 8 ∧
      t.toList = (md5hexChars (strBytes "C001")).take 8 ∧
      t.toList.all (fun c => c.isDigit || ('a' ≤ c && c ≤ 'f')) = true) :=
  ⟨by decide, C7_hash_value_deterministic.2.2.2 "C001" (by decide)⟩
